/-
Verification of the core behaviours of a Go client library for an external
agent CLI (subprocess transport, protocol handler, session client, hooks,
permission evaluator, MCP client, retry helper).

Each Go function under scrutiny is shallowly embedded as an executable Lean
definition.  Go maps decoded from JSON (`map[string]any`) are modelled as
association lists over a JSON-value type; machine integers are modelled as
`Nat`/`Int`; `float64` values are modelled as rationals with explicit
truncation toward zero where Go converts to `int64`; fallible Go functions
return `Option`/`Except`.  Concurrency is modelled by linearisation: every
access to the atomic session-id cell and to the mutex-protected pending
table is an atomic step, so a concurrent execution is a sequence of such
steps.  External Go library calls (`encoding/json` unmarshalling, `regexp`)
are modelled by explicit parameters or by small executable stand-ins whose
scope is documented at their definition.
-/
import Mathlib

set_option autoImplicit false

/-! ## JSON values and Go maps

Model of Go `any` values produced by `encoding/json` unmarshalling into
`map[string]any`: objects become association lists, numbers become
rationals (Go gives `float64`), and the other primitives are tagged. -/

inductive JVal where
  | jnull
  | jbool (b : Bool)
  | jnum (q : ℚ)
  | jstr (s : String)
  | jarr (xs : List JVal)
  | jobj (fields : List (String × JVal))

/-- Lookup in a Go map decoded from JSON (keys are unique, first hit wins). -/
def jlookup (fields : List (String × JVal)) (k : String) : Option JVal :=
  match fields with
  | [] => none
  | (k', v) :: rest => if k' = k then some v else jlookup rest k

/-- Go type assertion `v.(string)`: the string when the dynamic type matches. -/
def jasString (v : Option JVal) : Option String :=
  match v with
  | some (.jstr s) => some s
  | _ => none

/-! ## Session client: the session-id cell (`claude/client.go`)

The cell is `atomic.Pointer[string]`; a `Load` and a `CompareAndSwap(nil, …)`
are single atomic steps, so any concurrent execution of the extractors is a
linear sequence of the step functions below acting on `Option String`
(`none` = unset). -/

/-- Raw framer-level message (`transport.RawMessage`): `type` discriminator
plus the decoded object map. -/
structure RawMessage where
  type : String
  data : List (String × JVal)

/-- One `CompareAndSwap(nil, &sid)` on the cell: sets it only when unset. -/
def casSessionID (cell : Option String) (sid : String) : Option String :=
  match cell with
  | none => some sid
  | some v => some v

/-- Go `extractSessionIDFromResponse`: skip when the cell is already set;
otherwise, when the control-response payload is an object carrying a
non-empty string `session_id`, CAS it in. -/
def extractSessionIDFromResponse (cell : Option String) (respPayload : JVal) :
    Option String :=
  if cell.isSome then cell
  else
    match respPayload with
    | .jobj fields =>
        match jasString (jlookup fields "session_id") with
        | some sid => if sid = "" then cell else casSessionID cell sid
        | none => cell
    | _ => cell

/-- Session id offered by the `result` branch of
`extractSessionIDFromRawMessage` (a non-empty string `session_id` at top
level of a `result` message). -/
def rawResultSessionID (raw : RawMessage) : Option String :=
  if raw.type = "result" then
    match jasString (jlookup raw.data "session_id") with
    | some sid => if sid = "" then none else some sid
    | none => none
  else none

/-- Session id offered by the `system` branch of
`extractSessionIDFromRawMessage` (a non-empty string `data.session_id`). -/
def rawSystemSessionID (raw : RawMessage) : Option String :=
  if raw.type = "system" then
    match jlookup raw.data "data" with
    | some (.jobj d) =>
        match jasString (jlookup d "session_id") with
        | some sid => if sid = "" then none else some sid
        | none => none
    | _ => none
  else none

/-- Go `extractSessionIDFromRawMessage`: skip when set; otherwise try the
`result` branch and then the `system` branch, CAS-ing the first hit. -/
def extractSessionIDFromRawMessage (cell : Option String) (raw : RawMessage) :
    Option String :=
  if cell.isSome then cell
  else
    match rawResultSessionID raw with
    | some sid => casSessionID cell sid
    | none =>
        match rawSystemSessionID raw with
        | some sid => casSessionID cell sid
        | none => cell

/-- One linearised extraction attempt: either the initialize-control-response
extractor or the raw-message extractor (`result` / `system` branches). -/
inductive ExtractEvent where
  | fromResponse (respPayload : JVal)
  | fromRaw (raw : RawMessage)

/-- Apply one extraction attempt to the cell. -/
def extractStep (cell : Option String) (e : ExtractEvent) : Option String :=
  match e with
  | .fromResponse j => extractSessionIDFromResponse cell j
  | .fromRaw m => extractSessionIDFromRawMessage cell m

/-- A linearised run of extraction attempts against the cell. -/
def runExtracts (cell : Option String) (evs : List ExtractEvent) : Option String :=
  evs.foldl extractStep cell

/-- Go `Client.SessionID()`: the cell's value, or `ErrSessionIDNotReady`
while unset (the error is modelled by `Except.error ()`). -/
def sessionIDGet (cell : Option String) : Except Unit String :=
  match cell with
  | none => .error ()
  | some v => .ok v

/-! ## Protocol handler: pending-request table (`internal/protocol`)

The table `map[string]chan *ControlResponse` (reply channels of capacity 1)
is modelled as an association list from request id to the slot's content
(`none` = empty channel).  All table accesses are under the handler mutex,
so a concurrent execution linearises into the operations below. -/

/-- Body of a `control_response` message (`ControlResponseBody`); the free
payload and error text are carried but not inspected by the handler. -/
structure CRespBody where
  subtype : String
  requestID : String
  respPayload : JVal
  errText : String

/-- Insert with Go-map semantics: overwrite the key when present. -/
def pInsert {A : Type} (l : List (String × A)) (k : String) (v : A) :
    List (String × A) :=
  match l with
  | [] => [(k, v)]
  | (k', v') :: rest =>
      if k' = k then (k, v) :: rest else (k', v') :: pInsert rest k v

/-- Delete with Go-map semantics. -/
def pRemove {A : Type} (l : List (String × A)) (k : String) :
    List (String × A) :=
  match l with
  | [] => []
  | (k', v') :: rest =>
      if k' = k then pRemove rest k else (k', v') :: pRemove rest k

/-- First-hit lookup (keys are unique under `pInsert`/`pRemove`). -/
def pLookup {A : Type} (l : List (String × A)) (k : String) : Option A :=
  match l with
  | [] => none
  | (k', v) :: rest => if k' = k then some v else pLookup rest k

/-- Handler state relevant to correlation: the pending table and the
monotonic request-id counter. -/
structure HandlerState where
  pending : List (String × Option CRespBody)
  counter : Nat

/-- Go `generateRequestID`: bump the counter and render `sdk-<n>`. -/
def generateRequestID (st : HandlerState) : HandlerState × String :=
  let n := st.counter + 1
  ({ st with counter := n }, "sdk-" ++ toString n)

/-- The observable first phase of `SendControlRequestWithTimeout`: the state
after the fresh id is enrolled with an empty reply slot, the id itself, and
the `request_id` field of the `control_request` object that is then
serialised and written to the transport. -/
structure SendStart where
  st : HandlerState
  id : String
  wireRequestID : String

/-- Go `SendControlRequestWithTimeout`, enrolment phase: generate the id,
enrol an empty slot under it, and only then build the wire message. -/
def sendControlRequestStart (st0 : HandlerState) : SendStart :=
  let p := generateRequestID st0
  let st2 := { p.1 with pending := pInsert p.1.pending p.2 none }
  { st := st2, id := p.2, wireRequestID := p.2 }

/-- Go `SendControlRequestWithTimeout`, completion phase: the deferred
`delete(h.pendingRequests, id)` that runs on every return path (reply
delivered, timeout expired, or caller context cancelled — the code merges
the last two into one `timeoutCtx.Done()`). -/
def sendControlRequestFinish (st : HandlerState) (id : String) : HandlerState :=
  { st with pending := pRemove st.pending id }

/-- Go `handleControlResponse`: look the reply's `request_id` up in the
pending table; deliver into the slot when it is present and empty
(capacity-1 channel), ignore a full slot, and silently drop the reply when
the id is not enrolled (the function returns nil in every case). -/
def handleControlResponse (st : HandlerState) (resp : CRespBody) : HandlerState :=
  match pLookup st.pending resp.requestID with
  | none => st
  | some slot =>
      match slot with
      | none => { st with pending := pInsert st.pending resp.requestID (some resp) }
      | some _ => st

/-- Correlation invariant of the pending table: a filled slot holds a reply
whose `request_id` equals its key. -/
def SlotInv (st : HandlerState) : Prop :=
  ∀ k r, pLookup st.pending k = some (some r) → r.requestID = k

/-! ## Protocol handler: application-message channel (`HandleIncoming`)

The application channel `make(chan Message, 100)` is modelled as a list of
buffered messages (head = oldest); the receive loop is its sole producer,
so `HandleIncoming`'s `select` dance is one sequential buffer update. -/

/-- Message variants produced by `ParseMessage` and dispatched by
`HandleIncoming` (payloads are carried but not inspected here). -/
inductive ParsedMsg where
  | userMsg (raw : RawMessage)
  | assistantMsg (raw : RawMessage)
  | systemMsg (raw : RawMessage)
  | resultMsg (raw : RawMessage)
  | controlRequestMsg (requestID : String) (request : JVal)
  | controlResponseMsg (resp : CRespBody)
  | genericMsg (type : String) (data : List (String × JVal))

/-- The four non-control variants that `HandleIncoming` forwards to the
application channel with the drop-oldest policy. -/
def isAppMessage (m : ParsedMsg) : Bool :=
  match m with
  | .userMsg _ => true
  | .assistantMsg _ => true
  | .systemMsg _ => true
  | .resultMsg _ => true
  | _ => false

/-- Capacity of the application message channel (`make(chan Message, 100)`). -/
def msgChanCap : Nat := 100

/-- The nested `select` of `HandleIncoming` for the four application
variants: non-blocking send; when the channel is full, non-blocking receive
of the oldest buffered message, then send.  (With the receive loop as sole
producer the final send always finds room.) -/
def enqueueDropOldest (buf : List ParsedMsg) (m : ParsedMsg) : List ParsedMsg :=
  if buf.length < msgChanCap then buf ++ [m]
  else
    match buf with
    | [] => [m]
    | _ :: rest => rest ++ [m]

/-- Effect of Go `HandleIncoming` on the application channel buffer, after
`ParseMessage` has produced `m`: control messages bypass the channel, the
four application variants are enqueued with drop-oldest, and an unknown
(`Generic`) variant is sent non-blockingly and dropped when full. -/
def handleIncomingChan (buf : List ParsedMsg) (m : ParsedMsg) : List ParsedMsg :=
  match m with
  | .controlRequestMsg _ _ => buf
  | .controlResponseMsg _ => buf
  | .genericMsg _ _ => if buf.length < msgChanCap then buf ++ [m] else buf
  | _ => enqueueDropOldest buf m

/-! ## Regular expressions (model of Go `regexp`)

`hooks.Matcher` and `permission.Rule` delegate to Go's `regexp` package.
The fragment exercised here — literal characters, `.` (any character except
newline), the postfix operators `*` `+` `?`, alternation `|`, grouping
`( )`, and backslash-escaped metacharacters — is modelled by an executable
Brzozowski-derivative matcher plus a compiler for exactly that fragment;
`goRegexCompile` returns `none` on syntax Go would also reject (dangling
postfix operator, unmatched parenthesis, trailing backslash) and on
constructs outside the modelled fragment (character classes, repetition
counts, anchors).  `MatchString` is unanchored: it succeeds when any
substring matches. -/

inductive RE where
  | emp
  | eps
  | chr (c : Char)
  | anyc
  | alt (r s : RE)
  | cat (r s : RE)
  | star (r : RE)
deriving DecidableEq

/-- Does the regex accept the empty string? -/
def nullable : RE → Bool
  | .emp => false
  | .eps => true
  | .chr _ => false
  | .anyc => false
  | .alt r s => nullable r || nullable s
  | .cat r s => nullable r && nullable s
  | .star _ => true

/-- Brzozowski derivative; `.` matches any character except a newline, as in
Go's default regex mode. -/
def reDeriv : RE → Char → RE
  | .emp, _ => .emp
  | .eps, _ => .emp
  | .chr c, a => if a = c then .eps else .emp
  | .anyc, a => if a = '\n' then .emp else .eps
  | .alt r s, a => .alt (reDeriv r a) (reDeriv s a)
  | .cat r s, a =>
      if nullable r then .alt (.cat (reDeriv r a) s) (reDeriv s a)
      else .cat (reDeriv r a) s
  | .star r, a => .cat (reDeriv r a) (.star r)

/-- Full (anchored) match of a character list. -/
def matchFull (r : RE) (cs : List Char) : Bool :=
  nullable (cs.foldl reDeriv r)

/-- Any single character, newline included (used for unanchored padding). -/
def reAnyChar : RE := .alt .anyc (.chr '\n')

/-- Go `Regexp.MatchString`: unanchored containment match. -/
def reSearch (r : RE) (s : String) : Bool :=
  matchFull (.cat (.star reAnyChar) (.cat r (.star reAnyChar))) s.data

/-- The metacharacter set Go's matcher checks for,
`strings.ContainsAny(pattern, ".*+?^${}[]|()\\")`. -/
def regexMetaChars : List Char :=
  ['.', '*', '+', '?', '^', '$', '{', '}', '[', ']', '|', '(', ')', '\\']

/-- Does the pattern contain a regex metacharacter? -/
def hasRegexChars (p : String) : Bool :=
  p.data.any (fun c => regexMetaChars.contains c)

mutual

/-- Parse an alternation (`concat ('|' concat)*`); fuel-bounded descent. -/
def parseAlt : Nat → List Char → Option (RE × List Char)
  | 0, _ => none
  | f + 1, s =>
      match parseConcat f s with
      | none => none
      | some (r, s1) => parseAltTail f r s1

/-- Fold further `'|' concat` branches onto an already-parsed left part. -/
def parseAltTail : Nat → RE → List Char → Option (RE × List Char)
  | 0, _, _ => none
  | f + 1, r, s =>
      match s with
      | '|' :: t =>
          match parseConcat f t with
          | none => none
          | some (r2, s2) => parseAltTail f (.alt r r2) s2
      | _ => some (r, s)

/-- Parse a (possibly empty) concatenation of repeated atoms. -/
def parseConcat : Nat → List Char → Option (RE × List Char)
  | 0, _ => none
  | f + 1, s => parseConcatTail f .eps s

/-- Accumulate repeated atoms until `|`, `)` or the end of the pattern. -/
def parseConcatTail : Nat → RE → List Char → Option (RE × List Char)
  | 0, _, _ => none
  | f + 1, acc, s =>
      match s with
      | [] => some (acc, [])
      | c :: _ =>
          if c = '|' ∨ c = ')' then some (acc, s)
          else
            match parseRepeat f s with
            | none => none
            | some (r, s2) => parseConcatTail f (.cat acc r) s2

/-- Parse an atom with an optional postfix `*`, `+` or `?`. -/
def parseRepeat : Nat → List Char → Option (RE × List Char)
  | 0, _ => none
  | f + 1, s =>
      match parseAtom f s with
      | none => none
      | some (r, s1) =>
          match s1 with
          | '*' :: t => some (.star r, t)
          | '+' :: t => some (.cat r (.star r), t)
          | '?' :: t => some (.alt .eps r, t)
          | _ => some (r, s1)

/-- Parse one atom: a group, `.`, an escaped metacharacter, or a literal. -/
def parseAtom : Nat → List Char → Option (RE × List Char)
  | 0, _ => none
  | f + 1, s =>
      match s with
      | [] => none
      | '(' :: t =>
          match parseAlt f t with
          | none => none
          | some (r, s1) =>
              match s1 with
              | ')' :: t2 => some (r, t2)
              | _ => none
      | '.' :: t => some (.anyc, t)
      | '\\' :: rest =>
          match rest with
          | [] => none
          | c :: t => if regexMetaChars.contains c then some (.chr c, t) else none
      | c :: t => if regexMetaChars.contains c then none else some (.chr c, t)

end

/-- Model of Go `regexp.Compile` on the fragment described above: the parse
must consume the whole pattern. -/
def goRegexCompile (p : String) : Option RE :=
  match parseAlt (4 * p.length + 8) p.data with
  | some (r, []) => some r
  | _ => none

/-! ## Hook matcher (`internal/hooks/matcher.go`) -/

/-- Go `hooks.Matcher`: the pattern, the compiled regex when one was
compiled, and the exact-match flag. -/
structure Matcher where
  pattern : String
  regex : Option RE
  isExact : Bool
deriving DecidableEq

/-- Go `NewMatcher`: empty pattern matches all; a pattern without
metacharacters is exact; otherwise compile it, downgrading to exact match
when compilation fails. -/
def NewMatcher (p : String) : Matcher :=
  if p = "" then { pattern := "", regex := none, isExact := false }
  else if hasRegexChars p then
    match goRegexCompile p with
    | none => { pattern := p, regex := none, isExact := true }
    | some re => { pattern := p, regex := some re, isExact := false }
  else { pattern := p, regex := none, isExact := true }

/-- Go `Matcher.Match`. -/
def matcherMatch (m : Matcher) (toolName : String) : Bool :=
  if m.pattern = "" then true
  else if m.isExact then m.pattern == toolName
  else
    match m.regex with
    | some re => reSearch re toolName
    | none => false

/-! ## Permission evaluator (`permission` package, src/unnamed/part_004)

`Mode` and `Behavior` are Go string types; they stay `String` here so that
the evaluator's switch fall-through on unlisted behaviours is kept.  The
user callback is passed through whole, errors included, so the evaluator
returns `Except String Result` with the callback modelled as a pure
function of the query. -/

/-- Go `permission.PermissionUpdate`. -/
structure PermissionUpdate where
  tool : String
  prompt : String
deriving DecidableEq

/-- Go `permission.ToolPermissionContext`. -/
structure ToolPermissionContext where
  sessionID : String
  permissionSuggestions : List PermissionUpdate
  blockedPath : String
deriving DecidableEq

/-- Go `permission.Result`. -/
structure PResult where
  allow : Bool
  updatedInput : Option JVal
  updatedPermissions : List PermissionUpdate
  message : String
  interrupt : Bool

/-- The Go literal `&Result{Allow: true}` (all other fields zero). -/
def allowResult : PResult :=
  { allow := true, updatedInput := none, updatedPermissions := [],
    message := "", interrupt := false }

/-- Go `permission.Rule` after `AddRule`: pattern, description, behaviour
string, and the compiled regex when the pattern was non-empty. -/
structure PRule where
  toolName : String
  ruleContent : String
  behavior : String
  regex : Option RE
deriving DecidableEq

/-- Go `Rule.matches`: the compiled regex when present, literal equality
otherwise. -/
def ruleMatches (r : PRule) (toolName : String) : Bool :=
  match r.regex with
  | some re => reSearch re toolName
  | none => r.toolName == toolName

/-- Go `Manager.AddRule`: a non-empty pattern must compile (a failure is
returned as an error and the rule is not added); an empty pattern is kept
with no compiled regex. -/
def AddRule (toolName ruleContent behavior : String) : Option PRule :=
  if toolName = "" then
    some { toolName := toolName, ruleContent := ruleContent,
           behavior := behavior, regex := none }
  else
    match goRegexCompile toolName with
    | none => none
    | some re =>
        some { toolName := toolName, ruleContent := ruleContent,
               behavior := behavior, regex := some re }

/-- The rule loop of `Evaluate`: the first matching rule with behaviour
`allow` or `deny` decides; a matching `ask` (or any other behaviour, via
the switch fall-through) continues the scan. -/
def evaluateRules (rules : List PRule) (toolName : String) : Option PResult :=
  match rules with
  | [] => none
  | r :: rest =>
      if ruleMatches r toolName then
        if r.behavior = "allow" then some allowResult
        else if r.behavior = "deny" then
          some { allow := false, updatedInput := none, updatedPermissions := [],
                 message := "Denied by rule: " ++ r.ruleContent, interrupt := false }
        else evaluateRules rest toolName
      else evaluateRules rest toolName

/-- Go `isEditTool`. -/
def isEditTool (toolName : String) : Bool :=
  toolName == "Edit" || toolName == "Write" || toolName == "NotebookEdit"

/-- Go `isReadOnlyTool`. -/
def isReadOnlyTool (toolName : String) : Bool :=
  toolName == "Read" || toolName == "Glob" || toolName == "Grep" ||
  toolName == "LSP" || toolName == "WebFetch" || toolName == "WebSearch"

/-- Model of the Go callback `CanUseToolFunc` as a pure function of the
query; `Except.error` models a returned Go error. -/
def CanUseToolFunc : Type :=
  String → List (String × JVal) → ToolPermissionContext → Except String PResult

/-- Go `Manager.Evaluate`: bypass mode allows; otherwise the rule table,
then the user callback, then the mode defaults, then the final default
allow (the CLI performs the real confirmation). -/
def Evaluate (mode : String) (rules : List PRule) (cb : Option CanUseToolFunc)
    (toolName : String) (input : List (String × JVal))
    (permContext : ToolPermissionContext) : Except String PResult :=
  if mode = "bypassPermissions" then .ok allowResult
  else
    match evaluateRules rules toolName with
    | some res => .ok res
    | none =>
        match cb with
        | some f => f toolName input permContext
        | none =>
            if mode = "acceptEdits" ∧ isEditTool toolName then .ok allowResult
            else if mode = "plan" then
              if isReadOnlyTool toolName then .ok allowResult
              else .ok { allow := false, updatedInput := none,
                         updatedPermissions := [],
                         message := "Plan mode: write operations not allowed",
                         interrupt := false }
            else .ok allowResult

/-! ## Hook shell executor (`internal/hooks/executor.go`)

`Execute` builds `sh -c <command>`, runs it, and interprets the outcome.
The run itself (exit status, captured stdout/stderr, and whether the
timeout context had fired by the post-run check) is the executor's
environment and is passed in as a `ShellRun`; `json.Unmarshal` of stdout
into `CommandOutput` is passed in as a parse function. -/

/-- Result of `cmd.Run()`: `none` is a nil error (exit 0); an `exitErr`
carries `ExitError.ExitCode()` (`-1` when the process died on a signal);
`otherErr` is any other failure to run the command. -/
inductive GoRunErr where
  | exitErr (code : Int)
  | otherErr (msg : String)
deriving DecidableEq

/-- Environment of one shell-hook execution. -/
structure ShellRun where
  ctxDone : Bool
  runErr : Option GoRunErr
  stdout : String
  stderr : String
deriving DecidableEq

/-- Go `hooks.CommandSpecificOutput` (camel-cased JSON fields). -/
structure CommandSpecificOutput where
  hookEventName : String
  permissionDecision : String
  permissionDecisionReason : String
  updatedInput : Option JVal
  additionalContext : String

/-- Go `hooks.CommandOutput`, the JSON shape a hook command may print on
stdout (`Continue` is `cont` here; `continue` is a Go/Lean keyword). -/
structure CommandOutput where
  cont : Bool
  stopReason : String
  suppressOutput : Bool
  decision : String
  systemMessage : String
  reason : String
  hookSpecificOutput : Option CommandSpecificOutput

/-- Go `hooks.SpecificOutput`. -/
structure SpecificOutput where
  hookEventName : String
  permissionDecision : String
  permissionDecisionReason : String
  updatedInput : Option JVal
  additionalContext : String

/-- Go `hooks.Output` (`Continue` is `cont` here). -/
structure Output where
  cont : Bool
  stopReason : String
  suppressOutput : Bool
  decision : String
  systemMessage : String
  reason : String
  hookSpecificOutput : Option SpecificOutput

/-- The Go literal `&Output{Continue: true}`. -/
def continueOutput : Output :=
  { cont := true, stopReason := "", suppressOutput := false, decision := "",
    systemMessage := "", reason := "", hookSpecificOutput := none }

/-- Errors `Execute` returns instead of an `Output`. -/
inductive ExecErr where
  | ctxDone
  | processKilled
  | runFailed (msg : String)
deriving DecidableEq

/-- Whitespace trimming on characters (model of Go `TrimSpace` for the
ASCII whitespace that occurs in hook output). -/
def isSpaceChar (c : Char) : Bool :=
  c = ' ' || c = '\t' || c = '\n' || c = '\r' || c = '\x0b' || c = '\x0c'

/-- Trim whitespace from both ends of a character list. -/
def trimSpace (cs : List Char) : List Char :=
  ((cs.dropWhile isSpaceChar).reverse.dropWhile isSpaceChar).reverse

/-- Go `parseSuccessOutput`: blank stdout continues, unparseable stdout
continues, and a parsed `CommandOutput` is converted field by field (the
conversion drops `AdditionalContext`). -/
def parseSuccessOutput (parse : String → Option CommandOutput) (data : String) :
    Output :=
  if trimSpace data.data = [] then continueOutput
  else
    match parse data with
    | none => continueOutput
    | some c =>
        { cont := c.cont, stopReason := c.stopReason,
          suppressOutput := c.suppressOutput, decision := c.decision,
          systemMessage := c.systemMessage, reason := c.reason,
          hookSpecificOutput :=
            c.hookSpecificOutput.map fun h =>
              { hookEventName := h.hookEventName,
                permissionDecision := h.permissionDecision,
                permissionDecisionReason := h.permissionDecisionReason,
                updatedInput := h.updatedInput,
                additionalContext := "" } }

/-- Interpretation of a completed run's exit code by Go `Execute`. -/
def interpretExitCode (parse : String → Option CommandOutput) (run : ShellRun)
    (code : Int) : Output :=
  if code = 0 then parseSuccessOutput parse run.stdout
  else if code = 2 then
    { cont := false, stopReason := "", suppressOutput := false,
      decision := "block", systemMessage := "", reason := run.stderr,
      hookSpecificOutput := none }
  else
    { cont := true, stopReason := "", suppressOutput := false, decision := "",
      systemMessage := run.stderr, reason := "", hookSpecificOutput := none }

/-- Go `Executor.Execute` after `cmd.Run()` returns: the context error is
checked first, then the exit code is extracted (`-1` = killed is an error),
then interpreted. -/
def Execute (parse : String → Option CommandOutput) (run : ShellRun) :
    Except ExecErr Output :=
  if run.ctxDone then .error .ctxDone
  else
    match run.runErr with
    | none => .ok (interpretExitCode parse run 0)
    | some (.exitErr code) =>
        if code = -1 then .error .processKilled
        else .ok (interpretExitCode parse run code)
    | some (.otherErr m) => .error (.runFailed m)

/-! ## Subprocess transport: stdout framer (`internal/transport/subprocess.go`)

`readLoop` scans stdout line by line with a `bufio.Scanner` whose maximum
token size is `MaxBufferSize`; a longer line makes `Scan` fail with
`ErrTooLong`, which ends the loop and surfaces a read error.  Shorter lines
are trimmed, skipped when blank, and accumulated until the buffer parses as
JSON (one raw message is emitted, buffer reset) or exceeds `MaxBufferSize`
(an overflow error is surfaced, buffer reset).  Whether a byte string
parses as one JSON value (`json.Unmarshal` succeeding) is a parameter.
Lines are character lists; lengths measure characters, which equals Go's
byte count on the ASCII payloads considered here. -/

/-- Errors `readLoop` places on the transport error channel. -/
inductive FramerError where
  | bufferOverflow (size : Nat)
  | stdoutRead
deriving DecidableEq

/-- Outcome of running the framer over a whole input: the emitted raw
message payloads, the surfaced errors, and whether the scan loop was
terminated by a scanner error (as opposed to reaching end of input). -/
structure FramerResult where
  msgs : List (List Char)
  errs : List FramerError
  scanFailed : Bool
deriving DecidableEq

/-- Prepend an emitted message to a framer outcome. -/
def framerConsMsg (m : List Char) (r : FramerResult) : FramerResult :=
  { r with msgs := m :: r.msgs }

/-- Prepend a surfaced error to a framer outcome. -/
def framerConsErr (e : FramerError) (r : FramerResult) : FramerResult :=
  { r with errs := e :: r.errs }

/-- Go `readLoop`, one recursion step per input line, carrying the
accumulation buffer `buf`. -/
def readLoopAux (parse : List Char → Bool) (maxBuf : Nat) (buf : List Char) :
    List (List Char) → FramerResult
  | [] => { msgs := [], errs := [], scanFailed := false }
  | line :: rest =>
      if maxBuf < line.length then
        { msgs := [], errs := [.stdoutRead], scanFailed := true }
      else
        let t := trimSpace line
        if t = [] then readLoopAux parse maxBuf buf rest
        else
          let b := buf ++ t
          if parse b then framerConsMsg b (readLoopAux parse maxBuf [] rest)
          else if maxBuf < b.length then
            framerConsErr (.bufferOverflow b.length)
              (readLoopAux parse maxBuf [] rest)
          else readLoopAux parse maxBuf b rest

/-- Go `readLoop` from an empty buffer. -/
def readLoop (parse : List Char → Bool) (maxBuf : Nat)
    (lines : List (List Char)) : FramerResult :=
  readLoopAux parse maxBuf [] lines

/-- The default framing ceiling, `DefaultMaxBufferSize` (10 MiB). -/
def defaultMaxBufferSize : Nat := 10 * 1024 * 1024

/-- State of the sample JSON well-formedness checker: bracket depth,
inside-string and escape flags, and a poison flag for a close with no
matching open. -/
structure JState where
  depth : Nat
  inStr : Bool
  esc : Bool
  bad : Bool
deriving DecidableEq

/-- One character step of the sample checker. -/
def jstep (st : JState) (c : Char) : JState :=
  if st.bad then st
  else if st.esc then { st with esc := false }
  else if st.inStr then
    if c = '\\' then { st with esc := true }
    else if c = '"' then { st with inStr := false }
    else st
  else if c = '"' then { st with inStr := true }
  else if c = '{' ∨ c = '[' then { st with depth := st.depth + 1 }
  else if c = '}' ∨ c = ']' then
    if st.depth = 0 then { st with bad := true }
    else { st with depth := st.depth - 1 }
  else st

/-- Sample instantiation of the framer's parse parameter: accepts byte
strings that open with `{` and close every bracket and string.  It is a
stand-in for `json.Unmarshal` succeeding, adequate for the concrete object
literals used in the theorems below. -/
def jsonLikeParse (cs : List Char) : Bool :=
  match cs with
  | [] => false
  | c :: _ =>
      let f := cs.foldl jstep { depth := 0, inStr := false, esc := false, bad := false }
      c == '{' && f.depth == 0 && !f.inStr && !f.esc && !f.bad

/-! ## Retry helper (`claude/session.go` and `claude/errors.go`)

Durations are nanosecond counts (`time.Duration` is an `int64` tick count;
the values here stay non-negative).  `float64` arithmetic on durations is
modelled exactly by rationals with truncation toward zero at the
conversion back to `time.Duration`; for the multipliers and values in the
claims the float computation is exact.  The jitter draw
`rand.Float64()*2 - 1` is an oracle parameter. -/

/-- Truncation toward zero (Go conversion `int64(f)` for in-range values). -/
def truncQ (q : ℚ) : Int :=
  if 0 ≤ q then ⌊q⌋ else ⌈q⌉

/-- Truncation toward zero into a duration tick count. -/
def truncQNat (q : ℚ) : Nat := (truncQ q).toNat

/-- Go errors as seen by `IsRetryable`/`GetRetryAfter`: an `SDKError` with
its `Retryable` flag and `RetryAfter` duration, the two retryable
sentinels, or anything else. -/
inductive GoErr where
  | sdk (op : String) (retryable : Bool) (retryAfter : Nat)
  | rateLimit
  | controlTimeout
  | otherErr (msg : String)
deriving DecidableEq

/-- Go `IsRetryable`: an `SDKError`'s own flag, otherwise the two sentinel
errors `ErrRateLimit` and `ErrControlTimeout`. -/
def IsRetryable (e : GoErr) : Bool :=
  match e with
  | .sdk _ r _ => r
  | .rateLimit => true
  | .controlTimeout => true
  | .otherErr _ => false

/-- Go `GetRetryAfter`: the `SDKError`'s `RetryAfter`, else zero. -/
def GetRetryAfter (e : GoErr) : Nat :=
  match e with
  | .sdk _ _ ra => ra
  | _ => 0

/-- Go `RetryConfig` (durations in nanoseconds, factor as an exact
rational). -/
structure RetryConfig where
  maxRetries : Nat
  initialBackoff : Nat
  maxBackoff : Nat
  backoffFactor : ℚ
  jitter : Bool
deriving DecidableEq

/-- Go `DefaultRetryConfig`. -/
def defaultRetryConfig : RetryConfig :=
  { maxRetries := 3, initialBackoff := 1000000000, maxBackoff := 30000000000,
    backoffFactor := 2, jitter := true }

/-- How a run of `WithRetry` ended. -/
inductive RetryOutcome where
  | success
  | nonRetryable (e : GoErr)
  | exhausted (last : Option GoErr)
deriving DecidableEq

/-- Observables of a `WithRetry` run: how often `fn` was invoked, the
backoff sleeps in order, and the outcome. -/
structure RetryRun where
  attempts : Nat
  sleeps : List Nat
  outcome : RetryOutcome
deriving DecidableEq

/-- The post-sleep update `backoff = Duration(float64(backoff)*factor)`,
capped at `MaxBackoff`. -/
def nextBackoff (cfg : RetryConfig) (b : Nat) : Nat :=
  let f := truncQNat (cfg.backoffFactor * (b : ℚ))
  if cfg.maxBackoff < f then cfg.maxBackoff else f

/-- The slept duration for current backoff `b`: `b` itself, or with jitter
enabled `Duration(float64(b) + float64(b)*0.25*draw)` where `draw` models
`rand.Float64()*2 - 1`. -/
def waitDuration (cfg : RetryConfig) (draw : ℚ) (b : Nat) : Nat :=
  if cfg.jitter then truncQNat ((b : ℚ) + (b : ℚ) * (1 / 4) * draw) else b

/-- The loop of Go `WithRetry`; `fn` gives the error of each invocation
(`none` = success), `draw` the jitter oracle per attempt, `fuel` the
remaining iterations of `for attempt := 0; attempt <= MaxRetries`. -/
def withRetryLoop (cfg : RetryConfig) (draw : Nat → ℚ) (fn : Nat → Option GoErr) :
    Nat → Nat → Nat → Option GoErr → RetryRun
  | 0, attempt, _, lastErr =>
      { attempts := attempt, sleeps := [], outcome := .exhausted lastErr }
  | fuel + 1, attempt, backoff, _ =>
      match fn attempt with
      | none => { attempts := attempt + 1, sleeps := [], outcome := .success }
      | some e =>
          if !IsRetryable e then
            { attempts := attempt + 1, sleeps := [], outcome := .nonRetryable e }
          else if cfg.maxRetries ≤ attempt then
            { attempts := attempt + 1, sleeps := [], outcome := .exhausted (some e) }
          else
            let b1 := if 0 < GetRetryAfter e then GetRetryAfter e else backoff
            let w := waitDuration cfg (draw attempt) b1
            let r := withRetryLoop cfg draw fn fuel (attempt + 1)
                       (nextBackoff cfg b1) (some e)
            { r with sleeps := w :: r.sleeps }

/-- Go `WithRetry` (context cancellation during a sleep is out of scope of
the claims and not modelled). -/
def WithRetry (cfg : RetryConfig) (draw : Nat → ℚ) (fn : Nat → Option GoErr) :
    RetryRun :=
  withRetryLoop cfg draw fn (cfg.maxRetries + 1) 0 cfg.initialBackoff none

/-- Stated from the claim's words, for comparison with `WithRetry`: the
scheduled exponential sleep for the i-th backoff under the claim's reading
that an override never rebases the schedule —
`min(initial * factor^i, cap)`. -/
def claimScheduledSleep (cfg : RetryConfig) (i : Nat) : Nat :=
  let f := truncQNat ((cfg.initialBackoff : ℚ) * cfg.backoffFactor ^ i)
  if cfg.maxBackoff < f then cfg.maxBackoff else f

/-- Stated from the claim's words, for comparison with `WithRetry`: the
sleep sequence in which a `retry_after` hint overrides its own attempt only
and every other sleep follows the exponential schedule from the initial
backoff.  `ras` lists, per failed attempt, the `retry_after` carried by its
error (`0` = none). -/
def claimSleeps (cfg : RetryConfig) (ras : List Nat) : List Nat :=
  (List.range ras.length).map fun i =>
    match ras.get? i with
    | some ra => if 0 < ra then ra else claimScheduledSleep cfg i
    | none => 0

/-! ## MCP client id normalisation (`mcp` package, src/unnamed/part_004)

`Message.ID` is `any`; after `encoding/json` decoding a JSON number is a
`float64`, a JSON string is a `string`, and the client's own generated ids
are `int64`.  A `json.Number` (a digit string) arises only when a decoder
with `UseNumber` is used.  `normalizeID` switches on that dynamic type. -/

/-- Dynamic Go values that can appear as a JSON-RPC id. -/
inductive GoID where
  | num (s : String)
  | float (q : ℚ)
  | str (s : String)
  | int (n : Int)
  | nullv
deriving DecidableEq

/-- Digits fold for `strconv.ParseInt` (base 10). -/
def digitsToNat : List Char → Option Nat
  | [] => none
  | cs => cs.foldl
      (fun acc c =>
        match acc with
        | none => none
        | some n => if c.isDigit then some (n * 10 + (c.toNat - 48)) else none)
      (some 0)

/-- Model of `json.Number.Int64()` = `strconv.ParseInt(s, 10, 64)`: an
optional sign, at least one digit, and the int64 range check. -/
def goParseInt64 (s : String) : Option Int :=
  let signed : Option Int :=
    match s.data with
    | '-' :: rest => (digitsToNat rest).map fun n => -(n : Int)
    | '+' :: rest => (digitsToNat rest).map fun n => (n : Int)
    | rest => (digitsToNat rest).map fun n => (n : Int)
  match signed with
  | some v =>
      if -(2 ^ 63) ≤ v ∧ v ≤ 2 ^ 63 - 1 then some v else none
  | none => none

/-- Go `normalizeID`: a `json.Number` that parses as an int64 becomes that
int64 and otherwise its underlying string; a `float64` is truncated to
int64; every other dynamic type (including a plain string) is returned
unchanged. -/
def normalizeID (id : GoID) : GoID :=
  match id with
  | .num s =>
      match goParseInt64 s with
      | some i => .int i
      | none => .str s
  | .float q => .int (truncQ q)
  | v => v

/-- Stated from the claim's words, for comparison with `evaluateRules`: the
first matching rule whose behaviour is `allow` or `deny`. -/
def findDecider (rules : List PRule) (toolName : String) : Option PRule :=
  rules.find? fun r =>
    ruleMatches r toolName && (r.behavior == "allow" || r.behavior == "deny")

/-- The verdict a deciding rule produces: allow, or deny carrying the rule
description in its message. -/
def deciderResult (r : PRule) : PResult :=
  if r.behavior = "allow" then allowResult
  else
    { allow := false, updatedInput := none, updatedPermissions := [],
      message := "Denied by rule: " ++ r.ruleContent, interrupt := false }

/-- The retry configuration of the claim's scenarios: initial backoff 1 s,
cap 30 s, factor 2.0, jitter off, 3 retries. -/
def c8Config : RetryConfig :=
  { maxRetries := 3, initialBackoff := 1000000000, maxBackoff := 30000000000,
    backoffFactor := 2, jitter := false }

/-- A function failing on attempt 0 with a retryable error carrying
`retry_after` = 10 ms, on attempt 1 with a retryable error carrying no
hint, and succeeding on attempt 2. -/
def c8FailTwice : Nat → Option GoErr :=
  fun n => if n = 0 then some (GoErr.sdk "query" true 10000000)
    else if n = 1 then some GoErr.rateLimit else none

/-- A single-line JSON object longer than the default 10 MiB framing
ceiling: `{"a":"<10485761 a characters>"}`, 10485769 characters in all. -/
def bigJsonLine : List Char :=
  ['{', '"', 'a', '"', ':', '"'] ++ List.replicate 10485761 'a' ++ ['"', '}']

/-! ## Helper lemmas -/

theorem pLookup_pInsert_self {A : Type} (l : List (String × A)) (k : String)
    (v : A) : pLookup (pInsert l k v) k = some v := by
  induction l with
  | nil => simp [pInsert, pLookup]
  | cons h t ih =>
      by_cases hk : h.1 = k
      · simp [pInsert, pLookup, hk]
      · simp [pInsert, pLookup, hk, ih]

theorem pLookup_pInsert_ne {A : Type} (l : List (String × A)) (k k' : String)
    (v : A) (h : k' ≠ k) : pLookup (pInsert l k v) k' = pLookup l k' := by
  have hks : k ≠ k' := fun hh => h hh.symm
  induction l with
  | nil => simp [pInsert, pLookup, hks]
  | cons hd t ih =>
      obtain ⟨a, b⟩ := hd
      by_cases hk : a = k
      · subst hk
        simp [pInsert, pLookup, hks]
      · simp [pInsert, pLookup, hk, ih]

theorem pLookup_pRemove_self {A : Type} (l : List (String × A)) (k : String) :
    pLookup (pRemove l k) k = none := by
  induction l with
  | nil => simp [pRemove, pLookup]
  | cons h t ih =>
      by_cases hk : h.1 = k
      · simp [pRemove, hk, ih]
      · simp [pRemove, pLookup, hk, ih]

theorem foldl_replicate_fixed {α β : Type} (f : α → β → α) (a : β) (s : α)
    (hfix : f s a = s) : ∀ n, (List.replicate n a).foldl f s = s := by
  intro n
  induction n with
  | zero => rfl
  | succ m ih => simp [List.replicate_succ, List.foldl_cons, hfix, ih]

theorem extractStep_some (v : String) (e : ExtractEvent) :
    extractStep (some v) e = some v := by
  cases e with
  | fromResponse j =>
      simp [extractStep, extractSessionIDFromResponse]
  | fromRaw m =>
      simp [extractStep, extractSessionIDFromRawMessage]

theorem runExtracts_some (v : String) (evs : List ExtractEvent) :
    runExtracts (some v) evs = some v := by
  induction evs with
  | nil => rfl
  | cons e rest ih =>
      simp only [runExtracts, List.foldl_cons, extractStep_some]
      exact ih

/-! ## Claim C1 -/

/-- Claim C1: for every connection the session-id cell is written at most
once.  In the linearised model of the atomic cell: once the cell holds a
value, each of the three extractors (initialize control response, `result`
message, `system` message) leaves it unchanged, any further linearised
sequence of extraction attempts keeps the same value, the first attempt
whose compare-and-set succeeds fixes the final value for the whole run, and
`SessionID()` observes exactly the cell's value (the not-ready error while
unset, the single written value afterwards). -/
theorem claim_C1_sessionID_write_once :
    (∀ v j, extractSessionIDFromResponse (some v) j = some v) ∧
    (∀ v m, extractSessionIDFromRawMessage (some v) m = some v) ∧
    (∀ v evs, runExtracts (some v) evs = some v) ∧
    (∀ e rest v, extractStep none e = some v →
      runExtracts none (e :: rest) = some v) ∧
    (∀ v, sessionIDGet (some v) = Except.ok v) ∧
    sessionIDGet none = Except.error () := by
  refine ⟨?_, ?_, ?_, ?_, ?_, rfl⟩
  · intro v j
    simp [extractSessionIDFromResponse]
  · intro v m
    simp [extractSessionIDFromRawMessage]
  · intro v evs
    exact runExtracts_some v evs
  · intro e rest v h
    simp only [runExtracts, List.foldl_cons, h]
    exact runExtracts_some v rest
  · intro v
    rfl

/-- Witness for claim C1 at a concrete race: a `result` message carrying
session id `S1` is linearised first, a `system` message carrying `B`
second; the run ends with `S1`. -/
theorem claim_C1_witness :
    runExtracts none
      [ExtractEvent.fromRaw { type := "result", data := [("session_id", JVal.jstr "S1")] },
       ExtractEvent.fromRaw { type := "system", data := [("data", JVal.jobj [("session_id", JVal.jstr "B")])] }]
      = some "S1" :=
  claim_C1_sessionID_write_once.2.2.2.1
    (ExtractEvent.fromRaw { type := "result", data := [("session_id", JVal.jstr "S1")] })
    [ExtractEvent.fromRaw { type := "system", data := [("data", JVal.jobj [("session_id", JVal.jstr "B")])] }]
    "S1" rfl

/-! ## Claim C2 -/

/-- Claim C2: pending-table discipline of the protocol handler.  The
generated id has the form `sdk-<n>`; at the moment the `control_request` is
written the id is already enrolled with an empty reply slot and is the
message's `request_id`; the deferred removal (which Go runs on reply,
timeout and caller cancellation alike) clears the entry; an inbound control
response whose `request_id` is not enrolled leaves the whole state
untouched (and the Go function returns nil, i.e. no error); delivery
preserves the correlation invariant, so any reply read out of the slot
enrolled under the sent id carries `request_id` equal to that id. -/
theorem claim_C2_pending_table :
    (∀ st : HandlerState,
      (sendControlRequestStart st).id = "sdk-" ++ toString (st.counter + 1) ∧
      (sendControlRequestStart st).wireRequestID = (sendControlRequestStart st).id ∧
      pLookup (sendControlRequestStart st).st.pending (sendControlRequestStart st).id
        = some none) ∧
    (∀ st id, pLookup (sendControlRequestFinish st id).pending id = none) ∧
    (∀ st resp, pLookup st.pending resp.requestID = none →
      handleControlResponse st resp = st) ∧
    (∀ st resp, SlotInv st → SlotInv (handleControlResponse st resp)) ∧
    (∀ st, SlotInv st → SlotInv (sendControlRequestStart st).st) ∧
    (∀ st id r, SlotInv st → pLookup st.pending id = some (some r) →
      r.requestID = id) := by
  refine ⟨?_, ?_, ?_, ?_, ?_, ?_⟩
  · intro st
    refine ⟨rfl, rfl, ?_⟩
    simp [sendControlRequestStart, generateRequestID, pLookup_pInsert_self]
  · intro st id
    simp [sendControlRequestFinish, pLookup_pRemove_self]
  · intro st resp h
    simp [handleControlResponse, h]
  · intro st resp hinv
    unfold handleControlResponse
    cases hslot : pLookup st.pending resp.requestID with
    | none => exact hinv
    | some slot =>
        cases slot with
        | none =>
            intro k r hk
            by_cases hkk : k = resp.requestID
            · subst hkk
              rw [pLookup_pInsert_self] at hk
              cases hk
              rfl
            · rw [pLookup_pInsert_ne _ _ _ _ hkk] at hk
              exact hinv k r hk
        | some old => exact hinv
  · intro st hinv
    intro k r hk
    simp only [sendControlRequestStart, generateRequestID] at hk
    by_cases hkk : k = "sdk-" ++ toString (st.counter + 1)
    · subst hkk
      rw [pLookup_pInsert_self] at hk
      cases hk
    · rw [pLookup_pInsert_ne _ _ _ _ hkk] at hk
      exact hinv k r hk
  · intro st id r hinv hk
    exact hinv id r hk

/-- Witness for claim C2 at a concrete state: with `sdk-1` enrolled and
empty, a stray response tagged `zzz` is dropped without touching the
table, a matching response `sdk-1` fills the slot with itself, and the
deferred removal clears the entry. -/
theorem claim_C2_witness :
    handleControlResponse
      { pending := [("sdk-1", none)], counter := 1 }
      { subtype := "success", requestID := "zzz", respPayload := JVal.jnull, errText := "" }
      = { pending := [("sdk-1", none)], counter := 1 } ∧
    pLookup (sendControlRequestFinish { pending := [("sdk-1", none)], counter := 1 } "sdk-1").pending "sdk-1" = none ∧
    (sendControlRequestStart { pending := [], counter := 0 }).id = "sdk-1" := by
  refine ⟨?_, ?_, ?_⟩
  · exact claim_C2_pending_table.2.2.1 _ _ rfl
  · exact claim_C2_pending_table.2.1 _ _
  · exact (claim_C2_pending_table.1 { pending := [], counter := 0 }).1

theorem getLast?_append_single {α : Type} (l : List α) (a : α) :
    (l ++ [a]).getLast? = some a := by
  induction l with
  | nil => rfl
  | cons h t ih =>
      rw [List.cons_append]
      cases ht : t ++ [a] with
      | nil => exact absurd ht (by simp)
      | cons b u =>
          rw [List.getLast?_cons_cons, ← ht]
          exact ih

/-! ## Claim C6 -/

/-- Claim C6: for each of the four application message variants (`user`,
`assistant`, `system`, `result`), `HandleIncoming` enqueues onto the
application channel without ever blocking its (sole-producer) loop: with
room available the message is appended; on a full channel exactly the
oldest buffered message is discarded, the buffer stays at capacity, and
the newly arrived message — never the one lost — ends up youngest in the
buffer. -/
theorem claim_C6_handleIncoming_drop_oldest (buf : List ParsedMsg) (m : ParsedMsg)
    (happ : isAppMessage m = true) (hle : buf.length ≤ msgChanCap) :
    (buf.length < msgChanCap → handleIncomingChan buf m = buf ++ [m]) ∧
    (buf.length = msgChanCap →
      handleIncomingChan buf m = buf.drop 1 ++ [m] ∧
      (handleIncomingChan buf m).length = msgChanCap) ∧
    (handleIncomingChan buf m).getLast? = some m := by
  have henq : handleIncomingChan buf m = enqueueDropOldest buf m := by
    cases m <;> simp_all [handleIncomingChan, isAppMessage]
  refine ⟨?_, ?_, ?_⟩
  · intro hlt
    rw [henq]
    simp [enqueueDropOldest, hlt]
  · intro heq
    cases buf with
    | nil => simp [msgChanCap] at heq
    | cons h t =>
        have hnlt : ¬ (h :: t).length < msgChanCap := by omega
        have hstep : enqueueDropOldest (h :: t) m = t ++ [m] := by
          unfold enqueueDropOldest
          rw [if_neg hnlt]
        rw [henq, hstep]
        simp only [List.length_cons] at heq
        constructor
        · rfl
        · simp only [List.length_append, List.length_cons, List.length_nil]
          omega
  · rw [henq]
    unfold enqueueDropOldest
    by_cases hlt : buf.length < msgChanCap
    · simp [hlt, getLast?_append_single]
    · simp only [hlt, if_false]
      cases buf with
      | nil => rfl
      | cons h t => simp [getLast?_append_single]

/-- Witness for claim C6: a channel holding 100 buffered generic messages
receives a `result` message; the oldest is discarded and the new message is
appended. -/
theorem claim_C6_witness :
    handleIncomingChan (List.replicate 100 (ParsedMsg.genericMsg "g" []))
        (ParsedMsg.resultMsg { type := "result", data := [] })
      = (List.replicate 100 (ParsedMsg.genericMsg "g" [])).drop 1
          ++ [ParsedMsg.resultMsg { type := "result", data := [] }] :=
  ((claim_C6_handleIncoming_drop_oldest
      (List.replicate 100 (ParsedMsg.genericMsg "g" []))
      (ParsedMsg.resultMsg { type := "result", data := [] })
      rfl (by simp [msgChanCap])).2.1 (by simp [msgChanCap])).1

theorem evaluateRules_eq_findDecider (rules : List PRule) (t : String) :
    evaluateRules rules t = (findDecider rules t).map deciderResult := by
  induction rules with
  | nil => rfl
  | cons r rest ih =>
      by_cases hm : ruleMatches r t = true
      · by_cases ha : r.behavior = "allow"
        · simp [evaluateRules, findDecider, hm, ha, deciderResult]
        · by_cases hd : r.behavior = "deny"
          · simp [evaluateRules, findDecider, hm, ha, hd, deciderResult]
          · simp only [evaluateRules, findDecider] at ih ⊢
            simp [hm, ha, hd, ih]
      · simp only [evaluateRules, findDecider] at ih ⊢
        simp [hm, ih]

/-! ## Claim C3 -/

/-- Claim C3: arbitration order of the permission evaluator.  Bypass mode
allows unconditionally.  Otherwise the first matching rule whose behaviour
is `allow` or `deny` decides (matching `ask` rules defer: the scan
continues past them), a deny verdict carrying the rule description in its
message.  With no deciding rule a registered callback's result — error
included — is returned verbatim.  With no callback the mode defaults
apply: `acceptEdits` allows the edit tools (exactly Edit, Write,
NotebookEdit) and for every other tool falls through to the final default
allow (the deferral to the CLI); `plan` allows exactly the six read-only
tools and denies everything else with the plan-mode message; `default`
mode allows. -/
theorem claim_C3_evaluate_arbitration (mode : String) (rules : List PRule)
    (cb : Option CanUseToolFunc) (t : String) (input : List (String × JVal))
    (pctx : ToolPermissionContext) :
    (mode = "bypassPermissions" →
      Evaluate mode rules cb t input pctx = .ok allowResult) ∧
    (mode ≠ "bypassPermissions" → ∀ r, findDecider rules t = some r →
      Evaluate mode rules cb t input pctx = .ok (deciderResult r) ∧
      (r.behavior = "allow" → deciderResult r = allowResult) ∧
      (r.behavior = "deny" → deciderResult r =
        { allow := false, updatedInput := none, updatedPermissions := [],
          message := "Denied by rule: " ++ r.ruleContent, interrupt := false })) ∧
    (mode ≠ "bypassPermissions" → findDecider rules t = none →
      ∀ f, cb = some f → Evaluate mode rules cb t input pctx = f t input pctx) ∧
    (mode = "acceptEdits" → findDecider rules t = none → cb = none →
      Evaluate mode rules cb t input pctx = .ok allowResult) ∧
    (mode = "plan" → findDecider rules t = none → cb = none →
      (isReadOnlyTool t = true →
        Evaluate mode rules cb t input pctx = .ok allowResult) ∧
      (isReadOnlyTool t = false →
        Evaluate mode rules cb t input pctx = .ok
          { allow := false, updatedInput := none, updatedPermissions := [],
            message := "Plan mode: write operations not allowed",
            interrupt := false })) ∧
    (mode = "default" → findDecider rules t = none → cb = none →
      Evaluate mode rules cb t input pctx = .ok allowResult) ∧
    (∀ s, isEditTool s = (s == "Edit" || s == "Write" || s == "NotebookEdit")) ∧
    (∀ s, isReadOnlyTool s = (s == "Read" || s == "Glob" || s == "Grep" ||
      s == "LSP" || s == "WebFetch" || s == "WebSearch")) := by
  refine ⟨?_, ?_, ?_, ?_, ?_, ?_, fun s => rfl, fun s => rfl⟩
  · intro h
    simp [Evaluate, h]
  · intro hmode r hr
    refine ⟨?_, ?_, ?_⟩
    · simp [Evaluate, hmode, evaluateRules_eq_findDecider, hr]
    · intro ha
      simp [deciderResult, ha]
    · intro hd
      have ha : ¬ r.behavior = "allow" := by
        rw [hd]
        decide
      simp [deciderResult, ha]
  · intro hmode hnone f hf
    simp [Evaluate, hmode, evaluateRules_eq_findDecider, hnone, hf]
  · intro hmode hnone hcb
    subst hmode
    by_cases he : isEditTool t = true
    · simp [Evaluate, evaluateRules_eq_findDecider, hnone, hcb, he]
    · simp [Evaluate, evaluateRules_eq_findDecider, hnone, hcb, he]
  · intro hmode hnone hcb
    subst hmode
    constructor
    · intro hro
      simp [Evaluate, evaluateRules_eq_findDecider, hnone, hcb, hro]
    · intro hro
      simp [Evaluate, evaluateRules_eq_findDecider, hnone, hcb, hro]
  · intro hmode hnone hcb
    subst hmode
    simp [Evaluate, evaluateRules_eq_findDecider, hnone, hcb]

/-- Witness for claim C3: with an `ask` rule for `Bash` followed by a
`deny` rule for `Bash`, the `ask` rule defers and the deny rule decides
with its description in the message; and with no rules and no callback,
plan mode denies `Write` with the plan-mode message. -/
theorem claim_C3_witness :
    Evaluate "default"
        [{ toolName := "Bash", ruleContent := "ask first", behavior := "ask", regex := none },
         { toolName := "Bash", ruleContent := "no bash", behavior := "deny", regex := none }]
        none "Bash" [] { sessionID := "", permissionSuggestions := [], blockedPath := "" }
      = .ok { allow := false, updatedInput := none, updatedPermissions := [],
              message := "Denied by rule: no bash", interrupt := false } ∧
    Evaluate "plan" [] none "Write" []
        { sessionID := "", permissionSuggestions := [], blockedPath := "" }
      = .ok { allow := false, updatedInput := none, updatedPermissions := [],
              message := "Plan mode: write operations not allowed",
              interrupt := false } := by
  constructor
  · have h := (claim_C3_evaluate_arbitration "default"
      [{ toolName := "Bash", ruleContent := "ask first", behavior := "ask", regex := none },
       { toolName := "Bash", ruleContent := "no bash", behavior := "deny", regex := none }]
      none "Bash" []
      { sessionID := "", permissionSuggestions := [], blockedPath := "" }).2.1
      (by decide)
      { toolName := "Bash", ruleContent := "no bash", behavior := "deny", regex := none }
      rfl
    exact h.1
  · exact (((claim_C3_evaluate_arbitration "plan" [] none "Write" []
      { sessionID := "", permissionSuggestions := [], blockedPath := "" }).2.2.2.2.1
      rfl rfl rfl).2 rfl)

/-! ## Claim C10 -/

/-- Claim C10: a permission rule added with an empty tool-name pattern gets
no compiled regex (`AddRule` only compiles non-empty patterns), so it
matches a tool name only by literal equality with the empty string: every
non-empty tool name fails to match and the rule's behaviour never applies.
The hook matcher is the opposite: an empty pattern matches every tool. -/
theorem claim_C10_empty_pattern_rule (content behavior : String) :
    AddRule "" content behavior =
      some { toolName := "", ruleContent := content, behavior := behavior,
             regex := none } ∧
    (∀ t, ruleMatches
        { toolName := "", ruleContent := content, behavior := behavior,
          regex := none } t = ("" == t)) ∧
    (∀ t, t ≠ "" → ruleMatches
        { toolName := "", ruleContent := content, behavior := behavior,
          regex := none } t = false) ∧
    (∀ t, matcherMatch (NewMatcher "") t = true) := by
  refine ⟨rfl, fun t => rfl, ?_, ?_⟩
  · intro t ht
    have hb : ("" == t) = false := beq_eq_false_iff_ne.mpr fun hh => ht hh.symm
    simp [ruleMatches, hb]
  · intro t
    simp [NewMatcher, matcherMatch]

/-- Witness for claim C10: the empty-pattern rule does not match `Bash`,
while the empty-pattern hook matcher does. -/
theorem claim_C10_witness :
    ruleMatches
      { toolName := "", ruleContent := "c", behavior := "deny", regex := none }
      "Bash" = false ∧
    matcherMatch (NewMatcher "") "Bash" = true :=
  ⟨(claim_C10_empty_pattern_rule "c" "deny").2.2.1 "Bash" (by decide),
   (claim_C10_empty_pattern_rule "c" "deny").2.2.2 "Bash"⟩

theorem matcherMatch_noMeta (p t : String) (hne : p ≠ "")
    (hmeta : hasRegexChars p = false) :
    matcherMatch (NewMatcher p) t = (p == t) := by
  simp [NewMatcher, matcherMatch, hne, hmeta]

/-! ## Claim C5 -/

/-- Claim C5: the hook matcher built from pattern `p` matches tool `t` as
follows: an empty pattern matches everything; a pattern without regex
metacharacters (`.*+?^${}[]|()\`) matches by literal equality; a pattern
with metacharacters is compiled and matches per the compiled regex, and a
compilation failure downgrades to literal equality.  In particular `""`
accepts every tool, `"Bash"` accepts only `"Bash"`, and `"Bash.*"` accepts
`"Bash"` and `"BashScript"` but not `"Read"`. -/
theorem claim_C5_matcher (p t : String) :
    matcherMatch (NewMatcher "") t = true ∧
    (p ≠ "" → hasRegexChars p = false →
      matcherMatch (NewMatcher p) t = (p == t)) ∧
    (p ≠ "" → hasRegexChars p = true → goRegexCompile p = none →
      matcherMatch (NewMatcher p) t = (p == t)) ∧
    (∀ re, p ≠ "" → hasRegexChars p = true → goRegexCompile p = some re →
      matcherMatch (NewMatcher p) t = reSearch re t) ∧
    (∀ s, matcherMatch (NewMatcher "Bash") s = (s == "Bash")) ∧
    matcherMatch (NewMatcher "Bash.*") "Bash" = true ∧
    matcherMatch (NewMatcher "Bash.*") "BashScript" = true ∧
    matcherMatch (NewMatcher "Bash.*") "Read" = false := by
  refine ⟨?_, ?_, ?_, ?_, ?_, ?_, ?_, ?_⟩
  · simp [NewMatcher, matcherMatch]
  · exact matcherMatch_noMeta p t
  · intro hne hmeta hfail
    simp [NewMatcher, matcherMatch, hne, hmeta, hfail]
  · intro re hne hmeta hok
    simp [NewMatcher, matcherMatch, hne, hmeta, hok]
  · intro s
    rw [matcherMatch_noMeta "Bash" s (by decide) (by decide)]
    by_cases h : s = "Bash"
    · subst h
      rfl
    · rw [beq_eq_false_iff_ne.mpr fun hh => h hh.symm,
          beq_eq_false_iff_ne.mpr h]
  · decide
  · decide
  · decide

/-- Witness for claim C5: the no-metacharacter clause at pattern `Bash`
and tool `Read`, and the compile-success clause via the concrete
`Bash.*` instances. -/
theorem claim_C5_witness :
    matcherMatch (NewMatcher "Bash") "Read" = ("Bash" == "Read") ∧
    matcherMatch (NewMatcher "Bash.*") "BashScript" = true :=
  ⟨(claim_C5_matcher "Bash" "Read").2.1 (by decide) (by decide),
   (claim_C5_matcher "Bash.*" "BashScript").2.2.2.2.2.2.1⟩

/-! ## Claim C4 -/

/-- Claim C4: the shell-hook executor's result is determined by the exit
code.  A context cancellation or deadline (observed after the run) is
returned as an error before any exit-code interpretation.  Exit 0 parses
captured stdout as `CommandOutput` JSON, with blank or unparseable stdout
yielding `{continue:true}`.  Exit 2 yields
`{continue:false, decision:"block", reason:<stderr>}`.  Any other exit code
of a run that completed (code `-1` denotes death by signal, which is an
error, not a completion) yields `{continue:true, system_message:<stderr>}`. -/
theorem claim_C4_executor_exit_codes (parse : String → Option CommandOutput)
    (run : ShellRun) :
    (run.ctxDone = true → Execute parse run = .error .ctxDone) ∧
    (run.ctxDone = false → run.runErr = none →
      Execute parse run = .ok (parseSuccessOutput parse run.stdout)) ∧
    (∀ s, trimSpace s.data = [] →
      parseSuccessOutput parse s = continueOutput) ∧
    (∀ s, parse s = none → parseSuccessOutput parse s = continueOutput) ∧
    (run.ctxDone = false → run.runErr = some (.exitErr 2) →
      Execute parse run = .ok
        { cont := false, stopReason := "", suppressOutput := false,
          decision := "block", systemMessage := "", reason := run.stderr,
          hookSpecificOutput := none }) ∧
    (∀ code : Int, run.ctxDone = false → run.runErr = some (.exitErr code) →
      code ≠ 0 → code ≠ 2 → code ≠ -1 →
      Execute parse run = .ok
        { cont := true, stopReason := "", suppressOutput := false,
          decision := "", systemMessage := run.stderr, reason := "",
          hookSpecificOutput := none }) := by
  refine ⟨?_, ?_, ?_, ?_, ?_, ?_⟩
  · intro h
    simp [Execute, h]
  · intro hc hr
    simp [Execute, hc, hr, interpretExitCode]
  · intro s hs
    simp [parseSuccessOutput, hs]
  · intro s hs
    by_cases ht : trimSpace s.data = []
    · simp [parseSuccessOutput, ht]
    · simp [parseSuccessOutput, ht, hs]
  · intro hc hr
    simp [Execute, hc, hr, interpretExitCode]
  · intro code hc hr h0 h2 hm1
    simp [Execute, hc, hr, interpretExitCode, h0, h2, hm1]

/-- Witness for claim C4 at the spec's exit-2 scenario: a hook that writes
`blocked` and a newline to stderr and exits 2 yields the blocking output
carrying that stderr. -/
theorem claim_C4_witness :
    Execute (fun _ => none)
        { ctxDone := false, runErr := some (.exitErr 2), stdout := "",
          stderr := "blocked\n" }
      = .ok { cont := false, stopReason := "", suppressOutput := false,
              decision := "block", systemMessage := "", reason := "blocked\n",
              hookSpecificOutput := none } :=
  (claim_C4_executor_exit_codes (fun _ => none)
      { ctxDone := false, runErr := some (.exitErr 2), stdout := "",
        stderr := "blocked\n" }).2.2.2.2.1 rfl rfl

/-! ## Claim C7

The claim is settled as corrected.  Its general part holds: whenever the
accumulation buffer, extended by a scanned line, fails to parse and
exceeds the ceiling, a buffer-overflow error is surfaced, the buffer is
reset and framing resumes with the next line (the amended theorem below).
Its "in particular" part is false: a single JSON object larger than 10 MiB
arriving on one line never reaches the accumulation buffer — the scanner's
token limit fails first, the read loop terminates with a read error, and
no buffer-overflow error is surfaced (the counterexample below). -/

/-- Amended claim C7: when a line within the scanner limit extends the
accumulation buffer past the ceiling without the bytes parsing as JSON,
the framer surfaces a buffer-overflow error carrying the buffer size,
resets the buffer, and resumes framing on the remaining lines. -/
theorem claim_C7_overflow_resumes (parse : List Char → Bool) (maxBuf : Nat)
    (buf l : List Char) (rest : List (List Char))
    (hlen : l.length ≤ maxBuf)
    (ht : trimSpace l ≠ [])
    (hparse : parse (buf ++ trimSpace l) = false)
    (hover : maxBuf < (buf ++ trimSpace l).length) :
    readLoopAux parse maxBuf buf (l :: rest) =
      framerConsErr (.bufferOverflow (buf ++ trimSpace l).length)
        (readLoopAux parse maxBuf [] rest) := by
  have hnlt : ¬ maxBuf < l.length := by omega
  simp only [readLoopAux]
  rw [if_neg hnlt, if_neg ht, if_neg (by simp [hparse]), if_pos hover]

/-- Witness for the amended claim C7: with ceiling 4, buffer `abc` and
line `de` (5 accumulated characters, unparseable), the framer surfaces the
overflow error and ends cleanly on the empty remainder. -/
theorem claim_C7_witness :
    readLoopAux (fun _ => false) 4 ['a', 'b', 'c'] [['d', 'e']] =
      { msgs := [], errs := [FramerError.bufferOverflow 5], scanFailed := false } := by
  rw [claim_C7_overflow_resumes (fun _ => false) 4 ['a', 'b', 'c'] ['d', 'e'] []
    (by decide) (by decide) rfl (by decide)]
  rfl

/-- Counterexample to claim C7 as stated: the concrete single-line JSON
object of 10485769 characters exceeds the 10 MiB default ceiling, yet the
framer surfaces no buffer-overflow error — the scan fails with a stdout
read error and the read loop terminates instead of resuming on the next
line. -/
theorem claim_C7_counterexample :
    jsonLikeParse bigJsonLine = true ∧
    defaultMaxBufferSize < bigJsonLine.length ∧
    readLoop jsonLikeParse defaultMaxBufferSize [bigJsonLine] =
      { msgs := [], errs := [FramerError.stdoutRead], scanFailed := true } ∧
    ∀ n, FramerError.bufferOverflow n ∉
      (readLoop jsonLikeParse defaultMaxBufferSize [bigJsonLine]).errs := by
  have hcons : bigJsonLine =
      '{' :: ((['"', 'a', '"', ':', '"'] ++
        List.replicate 10485761 'a') ++ ['"', '}']) := rfl
  have h0 : List.foldl jstep
      { depth := 0, inStr := false, esc := false, bad := false }
      ['{', '"', 'a', '"', ':', '"']
      = { depth := 1, inStr := true, esc := false, bad := false } := by decide
  have hmid := foldl_replicate_fixed jstep 'a'
    { depth := 1, inStr := true, esc := false, bad := false } (by decide) 10485761
  have h2 : List.foldl jstep
      { depth := 1, inStr := true, esc := false, bad := false } ['"', '}']
      = { depth := 0, inStr := false, esc := false, bad := false } := by decide
  have hfold : bigJsonLine.foldl jstep
      { depth := 0, inStr := false, esc := false, bad := false }
      = { depth := 0, inStr := false, esc := false, bad := false } := by
    unfold bigJsonLine
    rw [List.foldl_append, List.foldl_append, h0, hmid, h2]
  have hparse : jsonLikeParse bigJsonLine = true := by
    rw [hcons] at hfold
    rw [hcons]
    simp only [jsonLikeParse, hfold]
    rfl
  have hlen : defaultMaxBufferSize < bigJsonLine.length := by
    have h : bigJsonLine.length = 10485769 := by
      unfold bigJsonLine
      rw [List.length_append, List.length_append, List.length_replicate]
      norm_num
    rw [h]
    norm_num [defaultMaxBufferSize]
  have hrun : readLoop jsonLikeParse defaultMaxBufferSize [bigJsonLine] =
      { msgs := [], errs := [FramerError.stdoutRead], scanFailed := true } := by
    unfold readLoop
    simp only [readLoopAux]
    rw [if_pos hlen]
  refine ⟨hparse, hlen, hrun, ?_⟩
  intro n
  rw [hrun]
  simp

theorem truncQNat_natCast (n : Nat) : truncQNat ((n : ℚ)) = n := by
  rw [truncQNat, truncQ]
  norm_num

theorem withRetryLoop_fail_step (cfg : RetryConfig) (draw : Nat → ℚ)
    (fn : Nat → Option GoErr) (fuel attempt backoff : Nat)
    (last : Option GoErr) (e : GoErr)
    (hfn : fn attempt = some e) (hr : IsRetryable e = true)
    (hlt : attempt < cfg.maxRetries) (hj : cfg.jitter = false) :
    withRetryLoop cfg draw fn (fuel + 1) attempt backoff last =
      { withRetryLoop cfg draw fn fuel (attempt + 1)
          (nextBackoff cfg
            (if 0 < GetRetryAfter e then GetRetryAfter e else backoff))
          (some e) with
        sleeps :=
          (if 0 < GetRetryAfter e then GetRetryAfter e else backoff) ::
          (withRetryLoop cfg draw fn fuel (attempt + 1)
            (nextBackoff cfg
              (if 0 < GetRetryAfter e then GetRetryAfter e else backoff))
            (some e)).sleeps } := by
  have hnle : ¬ cfg.maxRetries ≤ attempt := Nat.not_le.mpr hlt
  simp only [withRetryLoop, hfn, hr, Bool.not_true, Bool.false_eq_true,
    if_false, hnle, waitDuration, hj]

theorem withRetryLoop_success_step (cfg : RetryConfig) (draw : Nat → ℚ)
    (fn : Nat → Option GoErr) (fuel attempt backoff : Nat)
    (last : Option GoErr) (hfn : fn attempt = none) :
    withRetryLoop cfg draw fn (fuel + 1) attempt backoff last =
      { attempts := attempt + 1, sleeps := [], outcome := .success } := by
  simp only [withRetryLoop, hfn]

/-! ## Claim C8

The claim is settled as corrected.  The `retry_after` hint does replace the
scheduled sleep, and the spec's own scenario (two failures carrying 10 ms,
then success, under a 1 s initial backoff) sleeps 10 ms twice and invokes
the function three times.  But the override is not "for that one attempt
only": `backoff = retryAfter` rebases the whole schedule, so a later
failure without a hint sleeps `retryAfter * factor` (capped), not the
original exponential value grown from the initial backoff. -/

/-- Amended claim C8: when attempt 0 fails retryably with a positive
`retry_after` and attempt 1 fails retryably, the run (with jitter off)
sleeps exactly `retry_after` before attempt 1; the sleep before attempt 2
is attempt 1's own `retry_after` when it carries one, and otherwise the
exponential schedule continued from the overridden value —
`min(retry_after * factor, cap)` — not from the initial backoff.  With
attempt 2 succeeding, the function is invoked exactly three times. -/
theorem claim_C8_retryAfter_rebases (cfg : RetryConfig) (draw : Nat → ℚ)
    (fn : Nat → Option GoErr) (e0 e1 : GoErr)
    (hj : cfg.jitter = false) (hmr : 2 ≤ cfg.maxRetries)
    (h0 : fn 0 = some e0) (h0r : IsRetryable e0 = true)
    (h0a : 0 < GetRetryAfter e0)
    (h1 : fn 1 = some e1) (h1r : IsRetryable e1 = true)
    (h2 : fn 2 = none) :
    WithRetry cfg draw fn =
      { attempts := 3,
        sleeps := [GetRetryAfter e0,
          if 0 < GetRetryAfter e1 then GetRetryAfter e1
          else nextBackoff cfg (GetRetryAfter e0)],
        outcome := .success } := by
  obtain ⟨m, hm⟩ : ∃ m, cfg.maxRetries = m + 2 := ⟨cfg.maxRetries - 2, by omega⟩
  have hfuel : cfg.maxRetries + 1 = (m + 2) + 1 := by rw [hm]
  unfold WithRetry
  rw [hfuel]
  rw [withRetryLoop_fail_step cfg draw fn (m + 2) 0 cfg.initialBackoff none e0
    h0 h0r (by omega) hj]
  rw [withRetryLoop_fail_step cfg draw fn (m + 1) 1
    (nextBackoff cfg (if 0 < GetRetryAfter e0 then GetRetryAfter e0
      else cfg.initialBackoff)) (some e0) e1 h1 h1r (by omega) hj]
  rw [withRetryLoop_success_step cfg draw fn m 2
    (nextBackoff cfg (if 0 < GetRetryAfter e1 then GetRetryAfter e1
      else nextBackoff cfg (if 0 < GetRetryAfter e0 then GetRetryAfter e0
        else cfg.initialBackoff))) (some e1) h2]
  simp only [h0a, if_true]

/-- Witness for the amended claim C8, at the spec's own scenario: two
failures carrying `retry_after` = 10 ms (10000000 ns) then success, under
initial backoff 1 s: both sleeps are 10 ms (20 ms in total, not about 2 s)
and the function runs exactly 3 times. -/
theorem claim_C8_witness :
    WithRetry
        { maxRetries := 3, initialBackoff := 1000000000,
          maxBackoff := 30000000000, backoffFactor := 2, jitter := false }
        (fun _ => 0)
        (fun n => if n = 0 then some (GoErr.sdk "query" true 10000000)
          else if n = 1 then some (GoErr.sdk "query" true 10000000) else none) =
      { attempts := 3, sleeps := [10000000, 10000000], outcome := .success } := by
  rw [claim_C8_retryAfter_rebases
    { maxRetries := 3, initialBackoff := 1000000000,
      maxBackoff := 30000000000, backoffFactor := 2, jitter := false }
    (fun _ => 0)
    (fun n => if n = 0 then some (GoErr.sdk "query" true 10000000)
      else if n = 1 then some (GoErr.sdk "query" true 10000000) else none)
    (GoErr.sdk "query" true 10000000) (GoErr.sdk "query" true 10000000)
    rfl (by norm_num) rfl rfl (by decide) rfl rfl rfl]
  rfl

/-- Counterexample to claim C8 as stated: attempt 0 fails with
`retry_after` = 10 ms, attempt 1 fails retryably with no hint, attempt 2
succeeds, under initial backoff 1 s, factor 2, cap 30 s, jitter off.  The
code sleeps 10 ms then 20 ms (the schedule continues from the override);
the claim's reading — override for that one attempt only, later sleeps on
the exponential schedule from the initial backoff — predicts 10 ms then
2 s.  The two sleep sequences differ at the second sleep. -/
theorem claim_C8_counterexample :
    (WithRetry c8Config (fun _ => 0) c8FailTwice).sleeps
      = [10000000, 20000000] ∧
    claimSleeps c8Config [10000000, 0] = [10000000, 2000000000] ∧
    (20000000 : Nat) ≠ 2000000000 := by
  have hnb : nextBackoff c8Config 10000000 = 20000000 := by
    have hv : c8Config.backoffFactor * ((10000000 : Nat) : ℚ)
        = ((20000000 : Nat) : ℚ) := by
      norm_num [c8Config]
    simp only [nextBackoff, hv, truncQNat_natCast]
    norm_num [c8Config]
  have hrun : WithRetry c8Config (fun _ => 0) c8FailTwice =
      { attempts := 3, sleeps := [10000000, 20000000], outcome := .success } := by
    unfold WithRetry
    show withRetryLoop c8Config (fun _ => 0) c8FailTwice (3 + 1) 0 1000000000 none = _
    rw [withRetryLoop_fail_step c8Config (fun _ => 0) c8FailTwice 3 0 1000000000
      none (GoErr.sdk "query" true 10000000) rfl rfl (by decide) rfl]
    rw [if_pos (show 0 < GetRetryAfter (GoErr.sdk "query" true 10000000) by decide)]
    rw [show GetRetryAfter (GoErr.sdk "query" true 10000000) = 10000000 from rfl]
    rw [hnb]
    rw [withRetryLoop_fail_step c8Config (fun _ => 0) c8FailTwice 2 1 20000000
      (some (GoErr.sdk "query" true 10000000)) GoErr.rateLimit rfl rfl (by decide) rfl]
    rw [if_neg (show ¬ 0 < GetRetryAfter GoErr.rateLimit by decide)]
    rw [withRetryLoop_success_step c8Config (fun _ => 0) c8FailTwice 1 2
      (nextBackoff c8Config 20000000) (some GoErr.rateLimit) rfl]
  have hsched : claimScheduledSleep c8Config 1 = 2000000000 := by
    have hv : ((c8Config.initialBackoff : Nat) : ℚ) * c8Config.backoffFactor ^ 1
        = ((2000000000 : Nat) : ℚ) := by
      norm_num [c8Config]
    simp only [claimScheduledSleep, hv, truncQNat_natCast]
    norm_num [c8Config]
  refine ⟨?_, ?_, by norm_num⟩
  · rw [hrun]
  · simp only [claimSleeps, List.length_cons, List.length_nil]
    rw [show List.range (0 + 1 + 1) = [0, 1] from rfl]
    simp only [List.map_cons, List.map_nil]
    norm_num [hsched]

theorem truncQ_intCast (m : Int) : truncQ ((m : ℚ)) = m := by
  rw [truncQ]
  by_cases h : (0 : ℚ) ≤ (m : ℚ) <;> simp [h]

/-! ## Claim C9

The claim is settled as corrected.  `normalizeID` does canonicalize the
numeric encodings — a `json.Number` digit string parsing as int64, a
`float64` with integral value, and the client's own `int64` ids all reach
the same `int64` key — but a JSON string of digits decodes to a Go
`string`, falls into `normalizeID`'s default case, and is returned
unchanged, so it does not key into a pending entry enrolled under a
numeric id. -/

/-- Amended claim C9: `normalizeID` maps a `json.Number` that parses as an
int64 and a `float64` of integral value to the same `int64` key, leaves ids
already of type `int64` at that key, and sends a `json.Number` that fails
int64 parsing to its underlying string — but a plain string id (a JSON
string on the wire), digits or not, is returned unchanged as a string. -/
theorem claim_C9_normalizeID (s : String) :
    (∀ n, goParseInt64 s = some n → normalizeID (.num s) = .int n) ∧
    (goParseInt64 s = none → normalizeID (.num s) = .str s) ∧
    (∀ m : Int, normalizeID (.float ((m : ℚ))) = .int m) ∧
    normalizeID (.str s) = .str s ∧
    (∀ m : Int, normalizeID (.int m) = .int m) := by
  refine ⟨?_, ?_, ?_, rfl, fun m => rfl⟩
  · intro n h
    simp [normalizeID, h]
  · intro h
    simp [normalizeID, h]
  · intro m
    simp [normalizeID, truncQ_intCast]

/-- Witness for the amended claim C9: the digit string `42` as a
`json.Number` and the float `42.0` both normalize to the int64 key 42. -/
theorem claim_C9_witness :
    normalizeID (.num "42") = .int 42 ∧
    normalizeID (.float (((42 : Int) : ℚ))) = .int 42 :=
  ⟨(claim_C9_normalizeID "42").1 42 (by decide),
   (claim_C9_normalizeID "42").2.2.1 42⟩

/-- Counterexample to claim C9 as stated: the three JSON encodings of the
integer 42 do not all normalize to one canonical key — the string id
`"42"` stays a string while the numeric and floating encodings become the
int64 key 42, and the two keys differ. -/
theorem claim_C9_counterexample :
    normalizeID (.str "42") = .str "42" ∧
    normalizeID (.num "42") = .int 42 ∧
    normalizeID (.float (((42 : Int) : ℚ))) = .int 42 ∧
    GoID.str "42" ≠ GoID.int 42 := by
  refine ⟨rfl, ?_, ?_, by simp⟩
  · simp [normalizeID, show goParseInt64 "42" = some 42 from by decide]
  · exact congrArg GoID.int (truncQ_intCast 42)
